import Mathlib

/-!
Verification of the memory-export pipeline (`export_to_taskade.py`).

The pipeline reads a list of memory records, transforms each into a wire
payload, delivers it over HTTP with a bounded retry on rate-limiting
(HTTP 429), paces between records, and accumulates success/failure
counters into a final run summary.

We embed the two core functions, `send_memory` (retry policy) and
`export_memories` (run controller), as pure Lean functions.  The network
is abstracted as an oracle giving, for each record and each attempt
index, the raw result of that delivery attempt (a status code or a
transport exception), exactly the data the Python code branches on.
Every suspension (`time.sleep`) and every outbound call is recorded in
an event trace so that claims about waits and attempt counts are
claims about the trace.
-/

namespace Taskade

/-- Raw result of one `requests.post` call: either an HTTP response with a
status code, or a transport-level exception (`requests.exceptions.RequestException`). -/
inductive AttemptResult where
  | response (statusCode : Nat)
  | exception
deriving DecidableEq, Repr

/-- Configuration constant `BATCH_SIZE = 1` (records per pacing unit). -/
def BATCH_SIZE : Nat := 1

/-- Configuration constant `DELAY_BETWEEN_BATCHES = 5` (seconds between batches). -/
def DELAY_BETWEEN_BATCHES : Nat := 5

/-- Configuration constant `DELAY_ON_ERROR = 120` (seconds to wait when rate limited). -/
def DELAY_ON_ERROR : Nat := 120

/-- One row of the source query:
`SELECT content, type, importance, confidence, support_count, status, is_protected, source`.
`type`, `status` and `source` are nullable strings, `confidence` a nullable
decimal (modelled as `Rat`), `is_protected` a boolean. -/
structure MemoryRecord where
  content : String
  type : Option String
  importance : Int
  confidence : Option Rat
  support_count : Int
  status : Option String
  is_protected : Bool
  source : Option String
deriving DecidableEq, Repr

/-- The JSON payload posted to the webhook, with the field names used in
`export_memories`. -/
structure ExportPayload where
  memoryContent : String
  memoryType : String
  importance : Int
  confidence : Rat
  supportCount : Int
  status : String
  isProtected : String
  source : String
deriving DecidableEq, Repr

/-- Python truthiness for an optional string: `None` and `""` are falsy.
`pyStrElse s d` is `s if s else d`. -/
def pyStrElse (s : Option String) (d : String) : String :=
  match s with
  | none => d
  | some t => if t = "" then d else t

/-- Python `str.lower()`, restricted to the ASCII case mapping: lowercase
every character of the string. -/
def strLower (s : String) : String := ⟨s.data.map Char.toLower⟩

/-- `s.lower() if s else d`: lowercase a truthy optional string, fall back
to the literal default `d` when the value is `None` or `""`. -/
def pyLowerElse (s : Option String) (d : String) : String :=
  match s with
  | none => d
  | some t => if t = "" then d else strLower t

/-- The `memory_data` dictionary built from a row in `export_memories`
(lines 107–116 of the source):
`memoryType = row[1].lower() if row[1] else "fact"`,
`confidence = float(row[3]) if row[3] is not None else 0.0`,
`status = row[5].lower() if row[5] else "active"`,
`isProtected = "yes" if row[6] else "no"`,
`source = row[7] or "postgresql_export"`. -/
def toPayload (r : MemoryRecord) : ExportPayload :=
  { memoryContent := r.content
    memoryType := pyLowerElse r.type "fact"
    importance := r.importance
    confidence := match r.confidence with | some c => c | none => 0
    supportCount := r.support_count
    status := pyLowerElse r.status "active"
    isProtected := if r.is_protected then "yes" else "no"
    source := pyStrElse r.source "postgresql_export" }

/-- Observable events of one `send_memory` call: an outbound delivery
attempt (tagged with the `retry_count` at which it was made), or a
cool-down wait `time.sleep(DELAY_ON_ERROR)`. -/
inductive SendEvent where
  | attempt (try_ : Nat)
  | cooldown
deriving DecidableEq, Repr

/-- `send_memory(memory_data, retry_count)` (source lines 51–77), with the
network abstracted as `attempts : Nat → AttemptResult` giving the raw
result of the call made at each `retry_count`.  Returns the boolean
result together with the ordered trace of attempts and cool-down waits:
status 200 → `True`; status 429 with `retry_count < 3` → sleep
`DELAY_ON_ERROR` then recurse at `retry_count + 1`; status 429 with
retries exhausted → `False`; any other status → `False`; a transport
exception → `False`. -/
def send_memory (attempts : Nat → AttemptResult) (memory_data : ExportPayload)
    (retry_count : Nat) : Bool × List SendEvent :=
  match attempts retry_count with
  | .response code =>
      if code = 200 then
        (true, [.attempt retry_count])
      else if code = 429 then
        if retry_count < 3 then
          let r := send_memory attempts memory_data (retry_count + 1)
          (r.1, .attempt retry_count :: .cooldown :: r.2)
        else
          (false, [.attempt retry_count])
      else
        (false, [.attempt retry_count])
  | .exception => (false, [.attempt retry_count])
termination_by 4 - retry_count

/-- Observable events of a run: a delivery event of `send_memory` for the
record at 1-based index `record`, or a pacing wait
`time.sleep(DELAY_BETWEEN_BATCHES)`. -/
inductive RunEvent where
  | deliver (record : Nat) (ev : SendEvent)
  | pacing
deriving DecidableEq, Repr

/-- The run-local counters of `export_memories`:
`success_count`, `fail_count`, `batch_count`. -/
structure RunState where
  success_count : Nat
  fail_count : Nat
  batch_count : Nat
deriving DecidableEq, Repr

/-- The final summary printed by `export_memories`: the three counters,
the total, and the reported batch total
`batch_count + 1 if total > 0 else 0` (source line 138). -/
structure RunSummary where
  total : Nat
  succeeded : Nat
  failed : Nat
  batch_count : Nat
  batchesReported : Nat
deriving DecidableEq, Repr

/-- The body of `for i, row in enumerate(memories, 1):` (source lines
106–129), run over the remaining records `rows` starting at 1-based index
`i`, threading the counters `s`.  `oracle k` is the attempt oracle used by
`send_memory` for the record at index `k`; `total` is the count fetched
before the loop.  Each iteration transforms the row, calls `send_memory`
with `retry_count = 0`, bumps `success_count` or `fail_count`, and —
when `i % BATCH_SIZE == 0 and i < total` — bumps `batch_count` and paces. -/
def exportLoop (oracle : Nat → Nat → AttemptResult) (total : Nat) :
    List MemoryRecord → Nat → RunState → RunState × List RunEvent
  | [], _, s => (s, [])
  | row :: rows, i, s =>
      let memory_data := toPayload row
      let sent := send_memory (oracle i) memory_data 0
      let s1 : RunState :=
        if sent.1 then { s with success_count := s.success_count + 1 }
        else { s with fail_count := s.fail_count + 1 }
      let paced : RunState × List RunEvent :=
        if i % BATCH_SIZE = 0 ∧ i < total then
          ({ s1 with batch_count := s1.batch_count + 1 }, [.pacing])
        else
          (s1, [])
      let rest := exportLoop oracle total rows (i + 1) paced.1
      (rest.1, sent.2.map (RunEvent.deliver i) ++ paced.2 ++ rest.2)

/-- `export_memories()` (source lines 79–150), with the record source
abstracted as the fetched list `memories` (so `total = memories.length`,
matching the count query over the same filter) and the network as
`oracle`.  Runs the loop from index 1 with all counters zero and builds
the final summary, the reported batch total being
`batch_count + 1 if total > 0 else 0`. -/
def export_memories (memories : List MemoryRecord)
    (oracle : Nat → Nat → AttemptResult) : RunSummary × List RunEvent :=
  let total := memories.length
  let r := exportLoop oracle total memories 1 ⟨0, 0, 0⟩
  ({ total := total
     succeeded := r.1.success_count
     failed := r.1.fail_count
     batch_count := r.1.batch_count
     batchesReported := if 0 < total then r.1.batch_count + 1 else 0 }, r.2)

/-- Number of cool-down waits in a `send_memory` trace. -/
def countCooldowns (tr : List SendEvent) : Nat :=
  tr.countP (fun e => e = SendEvent.cooldown)

/-- Number of outbound delivery attempts in a `send_memory` trace. -/
def countAttempts (tr : List SendEvent) : Nat :=
  tr.countP (fun e => match e with | .attempt _ => true | .cooldown => false)

/-- Number of pacing waits in a run trace. -/
def countPacing (tr : List RunEvent) : Nat :=
  tr.countP (fun e => e = RunEvent.pacing)

/-- The Retry Policy outcome for the record `r` delivered at 1-based
index `i` under the attempt oracle, i.e. the boolean `send_memory`
returns for it. -/
def recordSuccess (oracle : Nat → Nat → AttemptResult) (i : Nat)
    (r : MemoryRecord) : Bool :=
  (send_memory (oracle i) (toPayload r) 0).1

/-- Number of records of `rows` (delivered starting at 1-based index `i`)
whose Retry Policy outcome is success. -/
def countSuccFrom (oracle : Nat → Nat → AttemptResult) :
    List MemoryRecord → Nat → Nat
  | [], _ => 0
  | r :: rows, i =>
      (if recordSuccess oracle i r then 1 else 0) +
        countSuccFrom oracle rows (i + 1)

/-- The run-local counters after the first `k` iterations of the loop of
`export_memories` over `memories`: the loop threads its state strictly
left to right, so this is the loop run on the `k`-prefix with the same
`total`. -/
def countersAfter (memories : List MemoryRecord)
    (oracle : Nat → Nat → AttemptResult) (k : Nat) : RunState :=
  (exportLoop oracle memories.length (memories.take k) 1 ⟨0, 0, 0⟩).1

/-- A sample database row used to instantiate the theorems below. -/
def sampleRecord : MemoryRecord :=
  { content := "alpha"
    type := some "Fact"
    importance := 7
    confidence := none
    support_count := 2
    status := some "ACTIVE"
    is_protected := true
    source := none }

/-- The payload of `sampleRecord`. -/
def samplePayload : ExportPayload := toPayload sampleRecord

end Taskade

namespace Taskade

/-- A list of at least two elements has the same last element as its tail. -/
lemma getLast?_cons_of_ne_nil {α : Type} (a : α) (l : List α) (h : l ≠ []) :
    (a :: l).getLast? = l.getLast? := by
  cases l with
  | nil => exact absurd rfl h
  | cons b t => exact List.getLast?_cons_cons

/-- Unfolding of `send_memory` on a 200 response: success after one attempt. -/
lemma send_memory_eq_accepted (attempts : Nat → AttemptResult)
    (memory_data : ExportPayload) (rc : Nat)
    (hx : attempts rc = .response 200) :
    send_memory attempts memory_data rc = (true, [.attempt rc]) := by
  rw [send_memory]
  simp [hx]

/-- Unfolding of `send_memory` on a 429 response with retries remaining:
attempt, cool-down, then the recursive call at `rc + 1`. -/
lemma send_memory_eq_retry (attempts : Nat → AttemptResult)
    (memory_data : ExportPayload) (rc : Nat)
    (hx : attempts rc = .response 429) (hlt : rc < 3) :
    send_memory attempts memory_data rc =
      ((send_memory attempts memory_data (rc + 1)).1,
        .attempt rc :: .cooldown ::
          (send_memory attempts memory_data (rc + 1)).2) := by
  rw [send_memory]
  simp [hx, hlt]

/-- Unfolding of `send_memory` on a 429 response with retries exhausted:
failure after the single attempt, no further wait. -/
lemma send_memory_eq_exhausted (attempts : Nat → AttemptResult)
    (memory_data : ExportPayload) (rc : Nat)
    (hx : attempts rc = .response 429) (hge : ¬ rc < 3) :
    send_memory attempts memory_data rc = (false, [.attempt rc]) := by
  rw [send_memory]
  simp [hx, hge]

/-- Unfolding of `send_memory` on any status other than 200 and 429:
immediate failure after the single attempt. -/
lemma send_memory_eq_rejected (attempts : Nat → AttemptResult)
    (memory_data : ExportPayload) (rc : Nat) (code : Nat)
    (hx : attempts rc = .response code)
    (h200 : code ≠ 200) (h429 : code ≠ 429) :
    send_memory attempts memory_data rc = (false, [.attempt rc]) := by
  rw [send_memory]
  simp [hx, h200, h429]

/-- Unfolding of `send_memory` on a transport exception: immediate
failure after the single attempt. -/
lemma send_memory_eq_exception (attempts : Nat → AttemptResult)
    (memory_data : ExportPayload) (rc : Nat)
    (hx : attempts rc = .exception) :
    send_memory attempts memory_data rc = (false, [.attempt rc]) := by
  rw [send_memory]
  simp [hx]

/-- Every `send_memory` call first performs the delivery attempt at the
current `retry_count`: its trace starts with that attempt event. -/
lemma send_memory_trace_head (attempts : Nat → AttemptResult)
    (memory_data : ExportPayload) (rc : Nat) :
    ∃ tl, (send_memory attempts memory_data rc).2 = .attempt rc :: tl := by
  cases hx : attempts rc with
  | response code =>
      by_cases h200 : code = 200
      · subst h200
        rw [send_memory_eq_accepted attempts memory_data rc hx]
        exact ⟨[], rfl⟩
      · by_cases h429 : code = 429
        · subst h429
          by_cases hlt : rc < 3
          · rw [send_memory_eq_retry attempts memory_data rc hx hlt]
            exact ⟨_, rfl⟩
          · rw [send_memory_eq_exhausted attempts memory_data rc hx hlt]
            exact ⟨[], rfl⟩
        · rw [send_memory_eq_rejected attempts memory_data rc code hx h200 h429]
          exact ⟨[], rfl⟩
  | exception =>
      rw [send_memory_eq_exception attempts memory_data rc hx]
      exact ⟨[], rfl⟩

/-- The trace of a `send_memory` call ends with a delivery attempt, never
with a cool-down wait: the policy does not sleep after its final attempt. -/
lemma send_memory_trace_last (attempts : Nat → AttemptResult)
    (memory_data : ExportPayload) (rc : Nat) :
    ∃ j, ((send_memory attempts memory_data rc).2).getLast? =
      some (SendEvent.attempt j) := by
  induction rc using send_memory.induct attempts memory_data with
  | case1 x hx =>
      rw [send_memory_eq_accepted attempts memory_data x hx]
      exact ⟨x, rfl⟩
  | case2 x hlt hx h200 ih =>
      obtain ⟨j, hj⟩ := ih
      obtain ⟨tl, htl⟩ := send_memory_trace_head attempts memory_data (x + 1)
      refine ⟨j, ?_⟩
      rw [send_memory_eq_retry attempts memory_data x hx hlt]
      show (SendEvent.attempt x :: SendEvent.cooldown ::
        (send_memory attempts memory_data (x + 1)).2).getLast? = _
      rw [List.getLast?_cons_cons,
        getLast?_cons_of_ne_nil _ _ (by rw [htl]; exact List.cons_ne_nil _ _)]
      exact hj
  | case3 x hge hx h200 =>
      rw [send_memory_eq_exhausted attempts memory_data x hx hge]
      exact ⟨x, rfl⟩
  | case4 x a hx h200 h429 =>
      rw [send_memory_eq_rejected attempts memory_data x a hx h200 h429]
      exact ⟨x, rfl⟩
  | case5 x hx =>
      rw [send_memory_eq_exception attempts memory_data x hx]
      exact ⟨x, rfl⟩

/-- Attempt- and wait-count bounds for `send_memory`: starting at
`retry_count = rc` the policy makes at most `1 + (3 - rc)` outbound
attempts and at most `3 - rc` cool-down waits. -/
lemma send_memory_counts_le (attempts : Nat → AttemptResult)
    (memory_data : ExportPayload) (rc : Nat) :
    countAttempts ((send_memory attempts memory_data rc).2) ≤ 1 + (3 - rc) ∧
    countCooldowns ((send_memory attempts memory_data rc).2) ≤ 3 - rc := by
  induction rc using send_memory.induct attempts memory_data with
  | case1 x hx =>
      rw [send_memory_eq_accepted attempts memory_data x hx]
      simp [countAttempts, countCooldowns]
  | case2 x hlt hx h200 ih =>
      rw [send_memory_eq_retry attempts memory_data x hx hlt]
      simp [countAttempts, countCooldowns, List.countP_cons] at ih ⊢
      omega
  | case3 x hge hx h200 =>
      rw [send_memory_eq_exhausted attempts memory_data x hx hge]
      simp [countAttempts, countCooldowns]
  | case4 x a hx h200 h429 =>
      rw [send_memory_eq_rejected attempts memory_data x a hx h200 h429]
      simp [countAttempts, countCooldowns]
  | case5 x hx =>
      rw [send_memory_eq_exception attempts memory_data x hx]
      simp [countAttempts, countCooldowns]

end Taskade

namespace Taskade

/-- A list whose last element exists is not empty. -/
lemma ne_nil_of_getLast?_eq_some {α : Type} {l : List α} {a : α}
    (h : l.getLast? = some a) : l ≠ [] := by
  cases l with
  | nil => cases h
  | cons b t => exact List.cons_ne_nil b t

/-- Mapping delivery tags over a `send_memory` trace introduces no pacing
events. -/
lemma countPacing_map_deliver (i : Nat) (l : List SendEvent) :
    countPacing (l.map (RunEvent.deliver i)) = 0 := by
  induction l with
  | nil => rfl
  | cons e t ih =>
      simp only [List.map_cons, countPacing, List.countP_cons] at ih ⊢
      simp [ih]

/-- Composition form of `countPacing_map_deliver`, matching the shape
`List.countP_map` produces. -/
lemma countP_pacing_comp_deliver (i : Nat) (l : List SendEvent) :
    List.countP ((fun e => decide (e = RunEvent.pacing)) ∘ RunEvent.deliver i)
      l = 0 := by
  induction l with
  | nil => rfl
  | cons e t ih => simp [List.countP_cons, ih, Function.comp]

/-- Counter invariant of the export loop: processing `rows` adds exactly
`rows.length` to `success_count + fail_count`. -/
lemma exportLoop_counters (oracle : Nat → Nat → AttemptResult) (total : Nat)
    (rows : List MemoryRecord) :
    ∀ (i : Nat) (s : RunState),
      ((exportLoop oracle total rows i s).1).success_count +
        ((exportLoop oracle total rows i s).1).fail_count =
      s.success_count + s.fail_count + rows.length := by
  induction rows with
  | nil => intro i s; simp [exportLoop]
  | cons row rows ih =>
      intro i s
      simp only [exportLoop]
      by_cases hs : (send_memory (oracle i) (toPayload row) 0).1 <;>
        by_cases hp : i % BATCH_SIZE = 0 ∧ i < total <;>
          simp [hs, hp, ih, List.length_cons] <;> omega

/-- Success-counter characterization of the export loop: processing `rows`
adds exactly the number of successful records. -/
lemma exportLoop_success (oracle : Nat → Nat → AttemptResult) (total : Nat)
    (rows : List MemoryRecord) :
    ∀ (i : Nat) (s : RunState),
      ((exportLoop oracle total rows i s).1).success_count =
      s.success_count + countSuccFrom oracle rows i := by
  induction rows with
  | nil => intro i s; simp [exportLoop, countSuccFrom]
  | cons row rows ih =>
      intro i s
      simp only [exportLoop, countSuccFrom]
      by_cases hs : (send_memory (oracle i) (toPayload row) 0).1 <;>
        by_cases hp : i % BATCH_SIZE = 0 ∧ i < total <;>
          simp [hs, hp, ih, recordSuccess] <;> omega

/-- The `batch_count` counter counts exactly the pacing waits in the
run trace: both are bumped in the same branch of the loop body. -/
lemma exportLoop_batch (oracle : Nat → Nat → AttemptResult) (total : Nat)
    (rows : List MemoryRecord) :
    ∀ (i : Nat) (s : RunState),
      ((exportLoop oracle total rows i s).1).batch_count =
      s.batch_count + countPacing ((exportLoop oracle total rows i s).2) := by
  induction rows with
  | nil => intro i s; simp [exportLoop, countPacing]
  | cons row rows ih =>
      intro i s
      simp only [exportLoop]
      by_cases hs : (send_memory (oracle i) (toPayload row) 0).1 <;>
        by_cases hp : i % BATCH_SIZE = 0 ∧ i < total <;>
          simp [hs, hp, ih, countPacing, List.countP_append, List.countP_cons,
            countP_pacing_comp_deliver] <;>
          omega

end Taskade

namespace Taskade

/-- `getLast?` commutes with `map`. -/
lemma getLast?_map {α β : Type} (f : α → β) (l : List α) :
    (l.map f).getLast? = l.getLast?.map f := by
  induction l with
  | nil => rfl
  | cons a t ih =>
      cases t with
      | nil => rfl
      | cons b t2 =>
          simp only [List.map_cons] at ih ⊢
          rw [List.getLast?_cons_cons, List.getLast?_cons_cons, ← List.map_cons]
          exact ih

/-- Appending to the left preserves a known last element. -/
lemma getLast?_append_right {α : Type} (l1 l2 : List α) (a : α)
    (h : l2.getLast? = some a) : (l1 ++ l2).getLast? = some a := by
  rw [List.getLast?_append_of_ne_nil _ (ne_nil_of_getLast?_eq_some h)]
  exact h

/-- With `BATCH_SIZE = 1` and the loop entered so that its last record
sits at index `total` (`i + rows.length = total + 1`, as in the real call
with `i = 1` and `total = rows.length`), the loop paces after every record
except the last: exactly `rows.length - 1` pacing waits. -/
lemma exportLoop_pacing (oracle : Nat → Nat → AttemptResult) (total : Nat) :
    ∀ (rows : List MemoryRecord) (i : Nat) (s : RunState),
      i + rows.length = total + 1 →
      countPacing ((exportLoop oracle total rows i s).2) = rows.length - 1 := by
  intro rows
  induction rows with
  | nil => intro i s h; simp [exportLoop, countPacing]
  | cons row rows ih =>
      intro i s h
      simp only [exportLoop]
      cases rows with
      | nil =>
          have hp : ¬ (i % BATCH_SIZE = 0 ∧ i < total) := by
            simp only [List.length_cons, List.length_nil] at h
            simp only [BATCH_SIZE]
            omega
          simp [hp, exportLoop, countPacing, List.countP_append,
            countP_pacing_comp_deliver]
      | cons row2 rows2 =>
          have hinv : i + 1 + (row2 :: rows2).length = total + 1 := by
            simp only [List.length_cons] at h ⊢
            omega
          have hp : i % BATCH_SIZE = 0 ∧ i < total := by
            simp only [List.length_cons] at h
            simp only [BATCH_SIZE]
            omega
          have h2 : ∀ s2 : RunState,
              List.countP (fun e => decide (e = RunEvent.pacing))
                ((exportLoop oracle total (row2 :: rows2) (i + 1) s2).2) =
              (row2 :: rows2).length - 1 := by
            intro s2
            have h3 := ih (i + 1) s2 hinv
            simpa [countPacing] using h3
          simp [hp, countPacing, List.countP_append, List.countP_cons,
            countP_pacing_comp_deliver, h2]

/-- With the same entry invariant, the last event of a nonempty run trace
is a delivery event of the record at index `total` — the run never ends
with a pacing wait. -/
lemma exportLoop_trace_last (oracle : Nat → Nat → AttemptResult)
    (total : Nat) :
    ∀ (rows : List MemoryRecord) (i : Nat) (s : RunState), rows ≠ [] →
      i + rows.length = total + 1 →
      ∃ j, ((exportLoop oracle total rows i s).2).getLast? =
        some (RunEvent.deliver total (SendEvent.attempt j)) := by
  intro rows
  induction rows with
  | nil => intro i s hne; exact absurd rfl hne
  | cons row rows ih =>
      intro i s _ h
      simp only [exportLoop]
      cases rows with
      | nil =>
          have hi : i = total := by
            simp only [List.length_cons, List.length_nil] at h
            omega
          have hp : ¬ (i % BATCH_SIZE = 0 ∧ i < total) := by
            simp only [BATCH_SIZE]
            omega
          obtain ⟨j, hj⟩ := send_memory_trace_last (oracle i) (toPayload row) 0
          refine ⟨j, ?_⟩
          simp only [hp, if_false, reduceIte, exportLoop, List.append_nil]
          rw [getLast?_map, hj, hi]
          rfl
      | cons row2 rows2 =>
          have hinv : i + 1 + (row2 :: rows2).length = total + 1 := by
            simp only [List.length_cons] at h ⊢
            omega
          have hall : ∀ s2 : RunState,
              ∃ j, ((exportLoop oracle total (row2 :: rows2) (i + 1) s2).2).getLast? =
                some (RunEvent.deliver total (SendEvent.attempt j)) :=
            fun s2 => ih (i + 1) s2 (List.cons_ne_nil _ _) hinv
          exact Exists.imp (fun j hj => getLast?_append_right _ _ _ hj) (hall _)

/-- Every record index in range receives its first delivery attempt: the
run trace contains the `attempt 0` delivery event of each record. -/
lemma exportLoop_mem_deliver (oracle : Nat → Nat → AttemptResult)
    (total : Nat) :
    ∀ (rows : List MemoryRecord) (i : Nat) (s : RunState) (k : Nat),
      i ≤ k → k < i + rows.length →
      RunEvent.deliver k (SendEvent.attempt 0) ∈
        (exportLoop oracle total rows i s).2 := by
  intro rows
  induction rows with
  | nil =>
      intro i s k h1 h2
      simp only [List.length_nil, Nat.add_zero] at h2
      omega
  | cons row rows ih =>
      intro i s k h1 h2
      simp only [exportLoop]
      rcases Nat.eq_or_lt_of_le h1 with he | hlt
      · subst he
        obtain ⟨tl, htl⟩ := send_memory_trace_head (oracle i) (toPayload row) 0
        apply List.mem_append_left
        apply List.mem_append_left
        rw [htl]
        exact List.mem_map_of_mem _ (List.mem_cons_self _ _)
      · apply List.mem_append_right
        refine ih (i + 1) _ k hlt ?_
        simp only [List.length_cons] at h2
        omega

end Taskade

namespace Taskade

/-- C2: a record whose delivery attempts return RateLimited (HTTP 429) on
every attempt up to and including the fourth (`maxRetries + 1` with
`maxRetries = 3`) counts as a failure: `send_memory` started at
`retry_count = 0` returns `false`, its trace is exactly four attempts
separated by three cool-down waits (each of `DELAY_ON_ERROR = 120`
seconds), and the trace ends with the final attempt, not with a wait. -/
theorem retry_policy_rate_limit_exhaustion (attempts : Nat → AttemptResult)
    (memory_data : ExportPayload)
    (h : ∀ j, j ≤ 3 → attempts j = .response 429) :
    send_memory attempts memory_data 0 =
      (false, [.attempt 0, .cooldown, .attempt 1, .cooldown, .attempt 2,
        .cooldown, .attempt 3]) ∧
    countCooldowns ((send_memory attempts memory_data 0).2) = 3 ∧
    ((send_memory attempts memory_data 0).2).getLast? =
      some (SendEvent.attempt 3) ∧
    DELAY_ON_ERROR = 120 := by
  have h0 := h 0 (by omega)
  have h1 := h 1 (by omega)
  have h2 := h 2 (by omega)
  have h3 := h 3 (by omega)
  have he : send_memory attempts memory_data 0 =
      (false, [.attempt 0, .cooldown, .attempt 1, .cooldown, .attempt 2,
        .cooldown, .attempt 3]) := by
    simp [send_memory, h0, h1, h2, h3]
  exact ⟨he, by rw [he]; rfl, by rw [he]; rfl, rfl⟩

/-- Witness for C2 at the oracle answering 429 forever. -/
theorem retry_policy_rate_limit_exhaustion_witness :
    send_memory (fun _ => AttemptResult.response 429) samplePayload 0 =
      (false, [.attempt 0, .cooldown, .attempt 1, .cooldown, .attempt 2,
        .cooldown, .attempt 3]) ∧
    countCooldowns
      ((send_memory (fun _ => AttemptResult.response 429) samplePayload 0).2) =
      3 ∧
    ((send_memory (fun _ => AttemptResult.response 429)
        samplePayload 0).2).getLast? = some (SendEvent.attempt 3) ∧
    DELAY_ON_ERROR = 120 :=
  retry_policy_rate_limit_exhaustion (fun _ => AttemptResult.response 429)
    samplePayload (fun _ _ => rfl)

/-- C3: a record whose delivery attempts return RateLimited exactly
`maxRetries = 3` times followed by Accepted (HTTP 200) counts as a
success, and the Retry Policy performs exactly three cool-down waits. -/
theorem retry_policy_success_after_retries (attempts : Nat → AttemptResult)
    (memory_data : ExportPayload)
    (h429 : ∀ j, j < 3 → attempts j = .response 429)
    (h200 : attempts 3 = .response 200) :
    send_memory attempts memory_data 0 =
      (true, [.attempt 0, .cooldown, .attempt 1, .cooldown, .attempt 2,
        .cooldown, .attempt 3]) ∧
    countCooldowns ((send_memory attempts memory_data 0).2) = 3 := by
  have h0 := h429 0 (by omega)
  have h1 := h429 1 (by omega)
  have h2 := h429 2 (by omega)
  have he : send_memory attempts memory_data 0 =
      (true, [.attempt 0, .cooldown, .attempt 1, .cooldown, .attempt 2,
        .cooldown, .attempt 3]) := by
    simp [send_memory, h0, h1, h2, h200]
  exact ⟨he, by rw [he]; rfl⟩

/-- Witness for C3 at the oracle answering 429 three times then 200. -/
theorem retry_policy_success_after_retries_witness :
    send_memory
      (fun j => if j < 3 then AttemptResult.response 429
        else AttemptResult.response 200) samplePayload 0 =
      (true, [.attempt 0, .cooldown, .attempt 1, .cooldown, .attempt 2,
        .cooldown, .attempt 3]) ∧
    countCooldowns
      ((send_memory
        (fun j => if j < 3 then AttemptResult.response 429
          else AttemptResult.response 200) samplePayload 0).2) = 3 :=
  retry_policy_success_after_retries
    (fun j => if j < 3 then AttemptResult.response 429
      else AttemptResult.response 200)
    samplePayload (fun j hj => by simp [hj]) rfl

/-- C4: a record whose first delivery attempt yields any status other
than 200 and 429 (e.g. 404), or a transport-level exception, fails
immediately: one single attempt, no cool-down wait, no retry. -/
theorem retry_policy_no_retry_on_terminal (attempts : Nat → AttemptResult)
    (memory_data : ExportPayload) (code : Nat)
    (hc200 : code ≠ 200) (hc429 : code ≠ 429)
    (h : attempts 0 = .response code ∨ attempts 0 = .exception) :
    send_memory attempts memory_data 0 = (false, [.attempt 0]) ∧
    countCooldowns ((send_memory attempts memory_data 0).2) = 0 ∧
    countAttempts ((send_memory attempts memory_data 0).2) = 1 := by
  have he : send_memory attempts memory_data 0 = (false, [.attempt 0]) := by
    rcases h with h | h
    · exact send_memory_eq_rejected attempts memory_data 0 code h hc200 hc429
    · exact send_memory_eq_exception attempts memory_data 0 h
  exact ⟨he, by rw [he]; rfl, by rw [he]; rfl⟩

/-- Witness for C4 at the oracle answering 404. -/
theorem retry_policy_no_retry_on_terminal_witness :
    send_memory (fun _ => AttemptResult.response 404) samplePayload 0 =
      (false, [.attempt 0]) ∧
    countCooldowns
      ((send_memory (fun _ => AttemptResult.response 404)
        samplePayload 0).2) = 0 ∧
    countAttempts
      ((send_memory (fun _ => AttemptResult.response 404)
        samplePayload 0).2) = 1 :=
  retry_policy_no_retry_on_terminal (fun _ => AttemptResult.response 404)
    samplePayload 404 (by decide) (by decide) (Or.inl rfl)

/-- C9: the Retry Policy terminates for every oracle (it is a total Lean
function) and, started at `retry_count = 0`, makes at most
`maxRetries + 1 = 4` delivery attempts and at most 3 cool-down waits per
record. -/
theorem retry_policy_attempt_bound (attempts : Nat → AttemptResult)
    (memory_data : ExportPayload) :
    countAttempts ((send_memory attempts memory_data 0).2) ≤ 3 + 1 ∧
    countCooldowns ((send_memory attempts memory_data 0).2) ≤ 3 := by
  have h := send_memory_counts_le attempts memory_data 0
  exact ⟨by have := h.1; omega, by have := h.2; omega⟩

end Taskade

namespace Taskade

/-- C1: at every point in the loop over records the succeeded counter
plus the failed counter equals the number of records processed so far
(the counters after the first `k` iterations sum to `k`), and at
completion `succeeded + failed` equals the total number of records
fetched. -/
theorem run_counters_invariant (memories : List MemoryRecord)
    (oracle : Nat → Nat → AttemptResult) :
    (∀ k, k ≤ memories.length →
      (countersAfter memories oracle k).success_count +
        (countersAfter memories oracle k).fail_count = k) ∧
    (export_memories memories oracle).1.succeeded +
      (export_memories memories oracle).1.failed =
      (export_memories memories oracle).1.total := by
  constructor
  · intro k hk
    have h := exportLoop_counters oracle memories.length
      (memories.take k) 1 ⟨0, 0, 0⟩
    simp only [countersAfter]
    rw [h]
    simp only [List.length_take]
    omega
  · have h := exportLoop_counters oracle memories.length memories 1 ⟨0, 0, 0⟩
    simp only [export_memories]
    simpa using h

/-- Witness for C1: a two-record run with every delivery accepted. -/
theorem run_counters_invariant_witness :
    ((countersAfter [sampleRecord, sampleRecord]
        (fun _ _ => AttemptResult.response 200) 1).success_count +
      (countersAfter [sampleRecord, sampleRecord]
        (fun _ _ => AttemptResult.response 200) 1).fail_count = 1) ∧
    (export_memories [sampleRecord, sampleRecord]
        (fun _ _ => AttemptResult.response 200)).1.succeeded +
      (export_memories [sampleRecord, sampleRecord]
        (fun _ _ => AttemptResult.response 200)).1.failed =
      (export_memories [sampleRecord, sampleRecord]
        (fun _ _ => AttemptResult.response 200)).1.total := by
  have h := run_counters_invariant [sampleRecord, sampleRecord]
    (fun _ _ => AttemptResult.response 200)
  exact ⟨h.1 1 (by decide), h.2⟩

/-- C5: the Run Controller processes every record: the succeeded counter
counts exactly the records whose Retry Policy outcome is success, the
failed counter counts all the others (failures are counted, never
propagated), and the run trace contains a first delivery attempt for
every record in the fetched list — no per-record failure aborts the
run. -/
theorem run_processes_every_record (memories : List MemoryRecord)
    (oracle : Nat → Nat → AttemptResult) :
    (export_memories memories oracle).1.succeeded =
      countSuccFrom oracle memories 1 ∧
    (export_memories memories oracle).1.failed =
      memories.length - countSuccFrom oracle memories 1 ∧
    (∀ k, k < memories.length →
      RunEvent.deliver (k + 1) (SendEvent.attempt 0) ∈
        (export_memories memories oracle).2) := by
  have hsum := exportLoop_counters oracle memories.length memories 1 ⟨0, 0, 0⟩
  have hsucc := exportLoop_success oracle memories.length memories 1 ⟨0, 0, 0⟩
  refine ⟨?_, ?_, ?_⟩
  · simp only [export_memories]
    simpa using hsucc
  · have h1 := hsum
    have h2 := hsucc
    simp at h1 h2
    simp [export_memories]
    omega
  · intro k hk
    simp only [export_memories]
    exact exportLoop_mem_deliver oracle memories.length memories 1
      ⟨0, 0, 0⟩ (k + 1) (by omega) (by omega)

/-- Witness for C5: a one-record run whose delivery is rejected with 404;
the failure is counted and the record was still attempted. -/
theorem run_processes_every_record_witness :
    (export_memories [sampleRecord]
        (fun _ _ => AttemptResult.response 404)).1.succeeded =
      countSuccFrom (fun _ _ => AttemptResult.response 404) [sampleRecord] 1 ∧
    (export_memories [sampleRecord]
        (fun _ _ => AttemptResult.response 404)).1.failed =
      [sampleRecord].length -
        countSuccFrom (fun _ _ => AttemptResult.response 404) [sampleRecord] 1 ∧
    RunEvent.deliver (0 + 1) (SendEvent.attempt 0) ∈
      (export_memories [sampleRecord]
        (fun _ _ => AttemptResult.response 404)).2 := by
  have h := run_processes_every_record [sampleRecord]
    (fun _ _ => AttemptResult.response 404)
  exact ⟨h.1, h.2.1, h.2.2 0 (by decide)⟩

end Taskade

namespace Taskade

/-- C6: with `BATCH_SIZE = 1`, a run over `n` records performs the pacing
delay exactly `n - 1` times, and — for a nonempty run — the last event of
the trace is a delivery event of the last record, so no pacing delay is
performed after the last record. -/
theorem pacer_invoked_n_minus_one (memories : List MemoryRecord)
    (oracle : Nat → Nat → AttemptResult) :
    countPacing ((export_memories memories oracle).2) =
      memories.length - 1 ∧
    (memories ≠ [] →
      ∃ j, ((export_memories memories oracle).2).getLast? =
        some (RunEvent.deliver memories.length (SendEvent.attempt j))) := by
  constructor
  · simp only [export_memories]
    exact exportLoop_pacing oracle memories.length memories 1 ⟨0, 0, 0⟩
      (by omega)
  · intro hne
    simp only [export_memories]
    exact exportLoop_trace_last oracle memories.length memories 1 ⟨0, 0, 0⟩
      hne (by omega)

/-- Witness for C6: a two-record run paces exactly once and ends with the
second record's delivery. -/
theorem pacer_invoked_n_minus_one_witness :
    countPacing ((export_memories [sampleRecord, sampleRecord]
        (fun _ _ => AttemptResult.response 200)).2) =
      [sampleRecord, sampleRecord].length - 1 ∧
    ∃ j, ((export_memories [sampleRecord, sampleRecord]
        (fun _ _ => AttemptResult.response 200)).2).getLast? =
      some (RunEvent.deliver [sampleRecord, sampleRecord].length
        (SendEvent.attempt j)) := by
  have h := pacer_invoked_n_minus_one [sampleRecord, sampleRecord]
    (fun _ _ => AttemptResult.response 200)
  exact ⟨h.1, h.2 (List.cons_ne_nil _ _)⟩

/-- C7: on an empty record list `export_memories` returns the all-zero
summary (`total = 0`, `succeeded = 0`, `failed = 0`, reported batch count
`0`) and an empty trace — no delivery attempt, no cool-down and no pacing
delay ever happens. -/
theorem empty_source_zero_summary (oracle : Nat → Nat → AttemptResult) :
    export_memories [] oracle =
      ({ total := 0, succeeded := 0, failed := 0, batch_count := 0,
         batchesReported := 0 }, []) := rfl

/-- C8: the record-to-payload transformation is a pure total function,
and on a record with `confidence = None`, `is_protected = True`,
`source = None`, `type = "Fact"` it yields `confidence = 0.0`,
`isProtected = "yes"`, the fallback source label `"postgresql_export"`,
and `memoryType = "fact"`, keeping content, importance and support count
unchanged. -/
theorem payload_transform_defaults (content : String) (imp sc : Int)
    (st : Option String) :
    (toPayload
      (MemoryRecord.mk content (some "Fact") imp none sc st true
        none)).confidence = 0 ∧
    (toPayload
      (MemoryRecord.mk content (some "Fact") imp none sc st true
        none)).isProtected = "yes" ∧
    (toPayload
      (MemoryRecord.mk content (some "Fact") imp none sc st true
        none)).source = "postgresql_export" ∧
    (toPayload
      (MemoryRecord.mk content (some "Fact") imp none sc st true
        none)).memoryType = "fact" ∧
    (toPayload
      (MemoryRecord.mk content (some "Fact") imp none sc st true
        none)).memoryContent = content ∧
    (toPayload
      (MemoryRecord.mk content (some "Fact") imp none sc st true
        none)).importance = imp ∧
    (toPayload
      (MemoryRecord.mk content (some "Fact") imp none sc st true
        none)).supportCount = sc :=
  ⟨rfl, rfl, rfl, rfl, rfl, rfl, rfl⟩

/-- C10: with `BATCH_SIZE = 1` the internal batch counter equals the
number of pacing delays performed, which is `total - 1` on a nonempty
run; the batch count reported in the final summary equals `total` when
`total > 0` and `0` when `total = 0`. -/
theorem batch_counter_matches_pacing (memories : List MemoryRecord)
    (oracle : Nat → Nat → AttemptResult) :
    (export_memories memories oracle).1.batch_count =
      countPacing ((export_memories memories oracle).2) ∧
    (0 < memories.length →
      (export_memories memories oracle).1.batch_count =
        memories.length - 1 ∧
      (export_memories memories oracle).1.batchesReported =
        memories.length) ∧
    (memories.length = 0 →
      (export_memories memories oracle).1.batchesReported = 0) := by
  have hb := exportLoop_batch oracle memories.length memories 1 ⟨0, 0, 0⟩
  have hp := exportLoop_pacing oracle memories.length memories 1 ⟨0, 0, 0⟩
    (by omega)
  simp at hb
  refine ⟨?_, ?_, ?_⟩
  · simp [export_memories]
    exact hb
  · intro hpos
    constructor
    · simp [export_memories]
      omega
    · simp [export_memories, hpos]
      omega
  · intro h0
    simp [export_memories, h0]

/-- Witness for C10: a two-record run has batch counter 1 and reports 2
batches. -/
theorem batch_counter_matches_pacing_witness :
    (export_memories [sampleRecord, sampleRecord]
        (fun _ _ => AttemptResult.response 200)).1.batch_count =
      countPacing ((export_memories [sampleRecord, sampleRecord]
        (fun _ _ => AttemptResult.response 200)).2) ∧
    (export_memories [sampleRecord, sampleRecord]
        (fun _ _ => AttemptResult.response 200)).1.batch_count =
      [sampleRecord, sampleRecord].length - 1 ∧
    (export_memories [sampleRecord, sampleRecord]
        (fun _ _ => AttemptResult.response 200)).1.batchesReported =
      [sampleRecord, sampleRecord].length := by
  have h := batch_counter_matches_pacing [sampleRecord, sampleRecord]
    (fun _ _ => AttemptResult.response 200)
  exact ⟨h.1, (h.2.1 (by decide)).1, (h.2.1 (by decide)).2⟩

end Taskade
